import Mathlib

/-!
Shallow embedding of the request-processing pipeline of the
flashbots/tdx-orderflow-proxy repository (proxy/api.go, the
BlockNumberSource of the main package) together with proofs of the
spec claims about it.

Conventions of the embedding:
* A 20-byte Ethereum address is modelled as a `Nat` (only equality of
  addresses matters to the code under study).
* A request fingerprint (a deterministic UUID computed by the external
  `rpctypes` library from a payload) is modelled as a `Nat`; the
  `UniqueKey()` functions of the library are passed in as parameters,
  since their code is an external collaborator of this repository.
* The request context (`ctx`) is modelled by the recovered signer
  address (`rpcserver.GetSigner(ctx)`) and a cancellation flag
  (`ctx.Done()`).
* The mutable fields of the `Proxy` value (dedup LRU, the two queues,
  metrics counters, the reader count of `peersMu`, the current clock
  reading used by `apiNow`) are threaded explicitly through a
  `ProxyState`; the immutable configuration lives in `ProxyEnv`.
* A Go buffered-channel send inside `select { <-ctx.Done(); ch <- v }`
  takes a ready case: it delivers when the buffer has room and the
  context is live, drops when only the done channel is ready, and
  blocks when neither case is ready (buffer full, context live).  When
  both cases are ready (context cancelled and room in the buffer) Go
  picks uniformly at random; that choice is an explicit oracle bit in
  `Ctx`.  Blocking is surfaced as the distinguished handler outcome
  `HResult.blocked`.
-/

abbrev Address := Nat

abbrev UUID := Nat

/-- Method-name constants from proxy/api.go. -/
def FlashbotsPeerName : String := "flashbots"

def EthSendBundleMethod : String := "eth_sendBundle"

def MevSendBundleMethod : String := "mev_sendBundle"

def EthCancelBundleMethod : String := "eth_cancelBundle"

def EthSendRawTransactionMethod : String := "eth_sendRawTransaction"

def BidSubsidiseBlockMethod : String := "bid_subsidiseBlock"

/-- The error values of proxy/api.go (`errUnknownPeer`,
`errSubsidyWrongEndpoint`, `errSubsidyWrongCaller`) plus a validation
failure produced by the per-method validators. -/
inductive ProxyError where
  | unknownPeer
  | subsidyWrongEndpoint
  | subsidyWrongCaller
  | validationFailed
deriving DecidableEq, Repr

/-- A peer as the proxy sees it: the name and the
`OrderflowProxy.EcdsaPubkeyAddress` used by `ValidateSigner`.  The other
peer fields (URL, certificate) play no role in the claims. -/
structure Peer where
  name : String
  ecdsaPubkeyAddress : Address
deriving DecidableEq, Repr

/-- Payload of `eth_sendBundle` (rpctypes.EthSendBundleArgs): the
`SigningAddress` field that local ingress overwrites, with the remaining
content-addressable fields abstracted into `rest`. -/
structure EthSendBundleArgs where
  signingAddress : Option Address
  rest : Nat
deriving DecidableEq, Repr

/-- rpctypes.MevBundleMetadata: only the `Signer` field is touched by
the proxy. -/
structure MevBundleMetadata where
  signer : Option Address
deriving DecidableEq, Repr

/-- Payload of `mev_sendBundle` (rpctypes.MevSendBundleArgs). -/
structure MevSendBundleArgs where
  metadata : Option MevBundleMetadata
  rest : Nat
deriving DecidableEq, Repr

/-- Payload of `eth_cancelBundle` (rpctypes.EthCancelBundleArgs). -/
structure EthCancelBundleArgs where
  signingAddress : Option Address
  rest : Nat
deriving DecidableEq, Repr

/-- Payload of `eth_sendRawTransaction`. -/
structure EthSendRawTransactionArgs where
  rest : Nat
deriving DecidableEq, Repr

/-- Payload of `bid_subsidiseBlock` (rpctypes.BidSubsisideBlockArgs). -/
structure BidSubsidiseBlockArgs where
  rest : Nat
deriving DecidableEq, Repr

/-- The `ParsedRequest` record of proxy/api.go: metadata plus one
pointer per payload variant (a nil pointer is `none`). -/
structure ParsedRequest where
  publicEndpoint : Bool
  signer : Address
  method : String
  peerName : String
  receivedAt : Nat
  requestArgUniqueKey : Option UUID
  ethSendBundle : Option EthSendBundleArgs
  mevSendBundle : Option MevSendBundleArgs
  ethCancelBundle : Option EthCancelBundleArgs
  ethSendRawTransaction : Option EthSendRawTransactionArgs
  bidSubsidiseBlock : Option BidSubsidiseBlockArgs
deriving DecidableEq, Repr

/-- The zero value of `ParsedRequest`, from which the handlers build
their request by setting the fields of their composite literal. -/
def ParsedRequest.empty : ParsedRequest :=
  { publicEndpoint := false
    signer := 0
    method := ""
    peerName := ""
    receivedAt := 0
    requestArgUniqueKey := none
    ethSendBundle := none
    mevSendBundle := none
    ethCancelBundle := none
    ethSendRawTransaction := none
    bidSubsidiseBlock := none }

/-- Immutable configuration of the proxy: the privileged Flashbots
address, the currently fetched peer list (fixed for the duration of one
request; refresh is a separate task), the capacities of the two bounded
queues and of the dedup LRU. -/
structure ProxyEnv where
  flashbotsSignerAddress : Address
  lastFetchedPeers : List Peer
  shareCap : Nat
  archiveCap : Nat
  lruCap : Nat

/-- Mutable proxy state threaded through a request: the dedup LRU
(most-recent first), the buffered contents of the two queues, the two
per-peer metrics counters of metrics.go, the reader count of `peersMu`,
and the current clock reading returned by `apiNow`. -/
structure ProxyState where
  lru : List UUID
  shareQueue : List ParsedRequest
  archiveQueue : List ParsedRequest
  incomingByPeer : String → Nat
  duplicateByPeer : String → Nat
  peersMuReaders : Nat
  now : Nat

/-- Request context together with the scheduling choices the Go
runtime makes for this request: the recovered signer from the
signature header, the cancellation flag of `ctx.Done()`, and one
tie-break oracle bit per `select` of `HandleParsedRequest` (share
send, archive send).  Go's `select` picks uniformly at random among
the ready cases; when both `ctx.Done()` and the channel send are
ready, the corresponding bit records which one the runtime chose
(`true` = the done branch).  The bits are consulted only in that
both-ready situation, so theorems with a live context are independent
of them. -/
structure Ctx where
  signer : Address
  cancelled : Bool
  takeDoneShare : Bool
  takeDoneArchive : Bool

/-- Modelled from the spec: the dedup cache is "a bounded LRU keyed by
fingerprint" (hashicorp LRU, external collaborator).  `Contains` is
membership; it does not touch recency. -/
def lruContains (l : List UUID) (k : UUID) : Bool :=
  l.contains k

/-- Modelled from the spec: `Add` inserts the key at the
most-recently-used position and evicts beyond capacity. -/
def lruAdd (cap : Nat) (l : List UUID) (k : UUID) : List UUID :=
  (k :: l.filter (fun x => x ≠ k)).take cap

/-- Modelled from the spec: per-peer metric increment
(`incAPIIncomingRequestsByPeer`, `incAPIDuplicateRequestsByPeer` of
metrics.go). -/
def bumpMetric (m : String → Nat) (k : String) : String → Nat :=
  fun k2 => if k2 = k then m k2 + 1 else m k2

/-- The first peer of the list whose `EcdsaPubkeyAddress` equals the
signer: the loop of ValidateSigner (proxy/api.go lines 87-93) stops at
the first match. -/
def findPeer (peers : List Peer) (signer : Address) : Option Peer :=
  peers.find? (fun p => signer = p.ecdsaPubkeyAddress)

/-- `ValidateSigner` (proxy/api.go lines 73-100).  Returns the updated
request, the updated reader count of `peersMu`, and the error if any.
The Go function takes `peersMu.RLock()` before scanning the peer list
and calls `RUnlock()` only after the `!found` early return, so the
unknown-peer path returns with the reader count still incremented. -/
def ValidateSigner (env : ProxyEnv) (ctx : Ctx) (req : ParsedRequest)
    (publicEndpoint : Bool) (readers : Nat) :
    ParsedRequest × Nat × Option ProxyError :=
  let req := { req with signer := ctx.signer }
  if !publicEndpoint then
    (req, readers, none)
  else if ctx.signer = env.flashbotsSignerAddress then
    ({ req with peerName := FlashbotsPeerName }, readers, none)
  else
    -- peersMu.RLock()
    let readers := readers + 1
    match findPeer env.lastFetchedPeers ctx.signer with
    | none =>
        -- early return before peersMu.RUnlock()
        (req, readers, some ProxyError.unknownPeer)
    | some peer =>
        -- peersMu.RUnlock(), then req.peerName = peerName
        ({ req with peerName := peer.name }, readers - 1, none)

/-- Outcome of the cancellation-aware channel send
`select { case <-ctx.Done(): case queue <- req: }`. -/
inductive SendOutcome where
  | sent
  | droppedCancelled
  | blocked
deriving DecidableEq, Repr

/-- One `select` between `ctx.Done()` and a buffered-channel send with
the given capacity.  A ready case is taken: with a live context and
room the send delivers, with a cancelled context and a full buffer
only the done branch is ready and the request is dropped, and with a
live context and a full buffer neither case is ready, so the `select`
blocks.  When the context is cancelled and the buffer has room, both
cases are ready and Go picks uniformly at random; the oracle bit
`takeDone` records that choice. -/
def selectSend (takeDone cancelled : Bool) (len cap : Nat) : SendOutcome :=
  if cancelled then
    if len < cap then
      if takeDone then SendOutcome.droppedCancelled else SendOutcome.sent
    else SendOutcome.droppedCancelled
  else if len < cap then SendOutcome.sent
  else SendOutcome.blocked

/-- Result of a handler: a returned error value (nil = `none`) with the
state at return, or a handler blocked forever on a full queue. -/
inductive HResult where
  | ret (st : ProxyState) (e : Option ProxyError)
  | blocked

/-- The share-queue contents visible in a handler result (empty when the
handler blocked and never returned). -/
def HResult.shareAll : HResult → List ParsedRequest
  | HResult.ret st _ => st.shareQueue
  | HResult.blocked => []

/-- The archive-queue contents visible in a handler result. -/
def HResult.archiveAll : HResult → List ParsedRequest
  | HResult.ret st _ => st.archiveQueue
  | HResult.blocked => []

/-- The error value a handler returned (`none` also when blocked). -/
def HResult.errOut : HResult → Option ProxyError
  | HResult.ret _ e => e
  | HResult.blocked => none

/-- Whether the handler blocked. -/
def HResult.isBlocked : HResult → Bool
  | HResult.ret _ _ => false
  | HResult.blocked => true

/-- `HandleParsedRequest` (proxy/api.go lines 279-303): stamp
`receivedAt` from `apiNow`, count the incoming request per peer on the
public surface, consult the dedup LRU when a fingerprint is present
(a hit counts a duplicate and returns nil without enqueueing; a miss
inserts), then send to the share queue and, for local ingress, to the
archive queue, each send racing the cancellation signal. -/
def HandleParsedRequest (env : ProxyEnv) (ctx : Ctx) (st : ProxyState)
    (parsedRequest : ParsedRequest) : HResult :=
  let pr := { parsedRequest with receivedAt := st.now }
  let st :=
    if pr.publicEndpoint then
      { st with incomingByPeer := bumpMetric st.incomingByPeer pr.peerName }
    else st
  let dedup :=
    match pr.requestArgUniqueKey with
    | some k =>
        if lruContains st.lru k then
          Sum.inl { st with duplicateByPeer := bumpMetric st.duplicateByPeer pr.peerName }
        else
          Sum.inr { st with lru := lruAdd env.lruCap st.lru k }
    | none => Sum.inr st
  match dedup with
  | Sum.inl st => HResult.ret st none
  | Sum.inr st =>
    match selectSend ctx.takeDoneShare ctx.cancelled st.shareQueue.length env.shareCap with
    | SendOutcome.blocked => HResult.blocked
    | outcome =>
      let st :=
        if outcome = SendOutcome.sent then
          { st with shareQueue := st.shareQueue ++ [pr] }
        else st
      if !pr.publicEndpoint then
        match selectSend ctx.takeDoneArchive ctx.cancelled st.archiveQueue.length env.archiveCap with
        | SendOutcome.blocked => HResult.blocked
        | outcome2 =>
          let st :=
            if outcome2 = SendOutcome.sent then
              { st with archiveQueue := st.archiveQueue ++ [pr] }
            else st
          HResult.ret st none
      else
        HResult.ret st none

/-- `EthSendBundle` (proxy/api.go lines 102-127).  The semantic
validator `ValidateEthSendBundle` and the fingerprint `UniqueKey` live
outside this repository's core and are passed in as parameters.  The Go
code mutates the payload through the pointer stored in the
`ParsedRequest`, so the stamped payload is what is enqueued and what the
fingerprint is computed from. -/
def EthSendBundle (env : ProxyEnv) (ctx : Ctx) (st : ProxyState)
    (validate : EthSendBundleArgs → Bool → Option ProxyError)
    (uniqueKey : EthSendBundleArgs → UUID)
    (ethSendBundle : EthSendBundleArgs) (publicEndpoint : Bool) : HResult :=
  let pr := { ParsedRequest.empty with
    publicEndpoint := publicEndpoint
    ethSendBundle := some ethSendBundle
    method := EthSendBundleMethod }
  match ValidateSigner env ctx pr publicEndpoint st.peersMuReaders with
  | (_, readers, some e) => HResult.ret { st with peersMuReaders := readers } (some e)
  | (pr, readers, none) =>
    let st := { st with peersMuReaders := readers }
    match validate ethSendBundle publicEndpoint with
    | some e => HResult.ret st (some e)
    | none =>
      let ethSendBundle :=
        if !publicEndpoint then
          { ethSendBundle with signingAddress := some pr.signer }
        else ethSendBundle
      let pr := { pr with
        ethSendBundle := some ethSendBundle
        requestArgUniqueKey := some (uniqueKey ethSendBundle) }
      HandleParsedRequest env ctx st pr

/-- `MevSendBundle` (proxy/api.go lines 137-165): on local ingress the
whole `Metadata` is replaced by one carrying the recovered signer. -/
def MevSendBundle (env : ProxyEnv) (ctx : Ctx) (st : ProxyState)
    (validate : MevSendBundleArgs → Bool → Option ProxyError)
    (uniqueKey : MevSendBundleArgs → UUID)
    (mevSendBundle : MevSendBundleArgs) (publicEndpoint : Bool) : HResult :=
  let pr := { ParsedRequest.empty with
    publicEndpoint := publicEndpoint
    mevSendBundle := some mevSendBundle
    method := MevSendBundleMethod }
  match ValidateSigner env ctx pr publicEndpoint st.peersMuReaders with
  | (_, readers, some e) => HResult.ret { st with peersMuReaders := readers } (some e)
  | (pr, readers, none) =>
    let st := { st with peersMuReaders := readers }
    match validate mevSendBundle publicEndpoint with
    | some e => HResult.ret st (some e)
    | none =>
      let mevSendBundle :=
        if !publicEndpoint then
          { mevSendBundle with metadata := some { signer := some pr.signer } }
        else mevSendBundle
      let pr := { pr with
        mevSendBundle := some mevSendBundle
        requestArgUniqueKey := some (uniqueKey mevSendBundle) }
      HandleParsedRequest env ctx st pr

/-- `EthCancelBundle` (proxy/api.go lines 175-196): stamps the signer on
local ingress and sets no fingerprint. -/
def EthCancelBundle (env : ProxyEnv) (ctx : Ctx) (st : ProxyState)
    (validate : EthCancelBundleArgs → Bool → Option ProxyError)
    (ethCancelBundle : EthCancelBundleArgs) (publicEndpoint : Bool) : HResult :=
  let pr := { ParsedRequest.empty with
    publicEndpoint := publicEndpoint
    ethCancelBundle := some ethCancelBundle
    method := EthCancelBundleMethod }
  match ValidateSigner env ctx pr publicEndpoint st.peersMuReaders with
  | (_, readers, some e) => HResult.ret { st with peersMuReaders := readers } (some e)
  | (pr, readers, none) =>
    let st := { st with peersMuReaders := readers }
    match validate ethCancelBundle publicEndpoint with
    | some e => HResult.ret st (some e)
    | none =>
      let ethCancelBundle :=
        if !publicEndpoint then
          { ethCancelBundle with signingAddress := some pr.signer }
        else ethCancelBundle
      let pr := { pr with ethCancelBundle := some ethCancelBundle }
      HandleParsedRequest env ctx st pr

/-- `EthSendRawTransaction` (proxy/api.go lines 206-221): no semantic
validator is invoked; fingerprint always set. -/
def EthSendRawTransaction (env : ProxyEnv) (ctx : Ctx) (st : ProxyState)
    (uniqueKey : EthSendRawTransactionArgs → UUID)
    (ethSendRawTransaction : EthSendRawTransactionArgs)
    (publicEndpoint : Bool) : HResult :=
  let pr := { ParsedRequest.empty with
    publicEndpoint := publicEndpoint
    ethSendRawTransaction := some ethSendRawTransaction
    method := EthSendRawTransactionMethod }
  match ValidateSigner env ctx pr publicEndpoint st.peersMuReaders with
  | (_, readers, some e) => HResult.ret { st with peersMuReaders := readers } (some e)
  | (pr, readers, none) =>
    let st := { st with peersMuReaders := readers }
    let pr := { pr with
      requestArgUniqueKey := some (uniqueKey ethSendRawTransaction) }
    HandleParsedRequest env ctx st pr

/-- Abstract error of an upstream JSON-RPC call. -/
abbrev RPCErr := String

/-- The cached-block-number state of `BlockNumberSource` (proxy.go):
the timestamp of the last successful update and the cached value.
Times are in whole seconds. -/
structure BlockNumberSource where
  cacheTimestamp : Nat
  cachedNumber : Nat
deriving DecidableEq, Repr

/-- `UpdateCachedBlockNumber` (proxy.go lines 236-247): an upstream
`eth_blockNumber` call (its outcome passed in as `upstream`), which on
success stores the fresh value together with the current time and on
failure leaves the cache untouched. -/
def UpdateCachedBlockNumber (bs : BlockNumberSource) (now : Nat)
    (upstream : Except RPCErr Nat) : Except RPCErr BlockNumberSource :=
  match upstream with
  | Except.error e => Except.error e
  | Except.ok n => Except.ok { cacheTimestamp := now, cachedNumber := n }

/-- `BlockNumber` (proxy.go lines 249-262): read-through with a
3-second TTL.  `time.Since(bs.cacheTimestamp) > 3s` triggers the
upstream refresh; an upstream failure returns the error with the state
unchanged. -/
def BlockNumber (bs : BlockNumberSource) (now : Nat)
    (upstream : Except RPCErr Nat) :
    Except RPCErr Nat × BlockNumberSource :=
  if now - bs.cacheTimestamp > 3 then
    match UpdateCachedBlockNumber bs now upstream with
    | Except.error e => (Except.error e, bs)
    | Except.ok bs2 => (Except.ok bs2.cachedNumber, bs2)
  else
    (Except.ok bs.cachedNumber, bs)

/-- `BidSubsidiseBlock` (proxy/api.go lines 231-255): rejected outright
on the local surface, then signature validation, then the
Flashbots-only gate, then fingerprint and enqueue. -/
def BidSubsidiseBlock (env : ProxyEnv) (ctx : Ctx) (st : ProxyState)
    (uniqueKey : BidSubsidiseBlockArgs → UUID)
    (bidSubsidiseBlock : BidSubsidiseBlockArgs)
    (publicEndpoint : Bool) : HResult :=
  if !publicEndpoint then
    HResult.ret st (some ProxyError.subsidyWrongEndpoint)
  else
    let pr := { ParsedRequest.empty with
      publicEndpoint := publicEndpoint
      bidSubsidiseBlock := some bidSubsidiseBlock
      method := BidSubsidiseBlockMethod }
    match ValidateSigner env ctx pr publicEndpoint st.peersMuReaders with
    | (_, readers, some e) => HResult.ret { st with peersMuReaders := readers } (some e)
    | (pr, readers, none) =>
      let st := { st with peersMuReaders := readers }
      if pr.signer ≠ env.flashbotsSignerAddress then
        HResult.ret st (some ProxyError.subsidyWrongCaller)
      else
        let pr := { pr with
          requestArgUniqueKey := some (uniqueKey bidSubsidiseBlock) }
        HandleParsedRequest env ctx st pr

/-! Concrete fixtures used by witnesses and counterexamples. -/

/-- A known peer used in concrete runs. -/
def testPeerA : Peer := { name := "peerA", ecdsaPubkeyAddress := 10 }

/-- A concrete proxy configuration: Flashbots address 1, one known
peer, small queue capacities. -/
def testEnv : ProxyEnv :=
  { flashbotsSignerAddress := 1
    lastFetchedPeers := [testPeerA]
    shareCap := 4
    archiveCap := 4
    lruCap := 16 }

/-- A fresh concrete proxy state. -/
def testState : ProxyState :=
  { lru := []
    shareQueue := []
    archiveQueue := []
    incomingByPeer := fun _ => 0
    duplicateByPeer := fun _ => 0
    peersMuReaders := 0
    now := 100 }

/-- C9: `BlockNumber` serves the cached number with no upstream call
when the cache is at most 3 seconds old (the result does not depend on
the upstream outcome); when older it refreshes from upstream, storing
the new value and timestamp, and returns the fresh value; an upstream
failure is returned as an error with the cache untouched. -/
theorem blockNumber_cache_spec (bs : BlockNumberSource) (now : Nat)
    (n : Nat) (e : RPCErr) :
    (now - bs.cacheTimestamp ≤ 3 →
      ∀ upstream, BlockNumber bs now upstream = (Except.ok bs.cachedNumber, bs)) ∧
    (now - bs.cacheTimestamp > 3 →
      BlockNumber bs now (Except.ok n) =
        (Except.ok n, { cacheTimestamp := now, cachedNumber := n }) ∧
      BlockNumber bs now (Except.error e) = (Except.error e, bs)) := by
  refine ⟨fun h upstream => ?_, fun h => ⟨?_, ?_⟩⟩
  · simp [BlockNumber, Nat.not_lt.mpr h]
  · simp [BlockNumber, UpdateCachedBlockNumber, h]
  · simp [BlockNumber, UpdateCachedBlockNumber, h]

/-- Witness for C9 at concrete inputs: a 2-second-old cache is served
regardless of a failing upstream; a 10-second-old cache refreshes on
success and reports the error (cache unchanged) on failure. -/
theorem blockNumber_cache_spec_witness :
    (2 - 0 ≤ 3 ∧
      BlockNumber ⟨0, 5⟩ 2 (Except.error "boom") = (Except.ok 5, ⟨0, 5⟩)) ∧
    (10 - 0 > 3 ∧
      BlockNumber ⟨0, 5⟩ 10 (Except.ok 7) = (Except.ok 7, ⟨10, 7⟩) ∧
      BlockNumber ⟨0, 5⟩ 10 (Except.error "boom") = (Except.error "boom", ⟨0, 5⟩)) :=
  ⟨⟨by decide,
    (blockNumber_cache_spec ⟨0, 5⟩ 2 7 "boom").1 (by decide) (Except.error "boom")⟩,
   ⟨by decide,
    (blockNumber_cache_spec ⟨0, 5⟩ 10 7 "boom").2 (by decide)⟩⟩

/-- C1: on the local surface `ValidateSigner` always succeeds and sets
only the signer field; on the public surface it succeeds iff the
recovered signer is the Flashbots address (then peerName is
"flashbots") or the `EcdsaPubkeyAddress` of some peer in the current
`lastFetchedPeers` (then peerName is that peer's name), and any other
signer yields the `UnknownPeer` error. -/
theorem validateSigner_auth_spec (env : ProxyEnv) (ctx : Ctx)
    (req : ParsedRequest) (r0 : Nat) :
    (ValidateSigner env ctx req false r0 =
        ({ req with signer := ctx.signer }, r0, none)) ∧
    ((ValidateSigner env ctx req true r0).2.2 = none ↔
        ctx.signer = env.flashbotsSignerAddress ∨
        ∃ p ∈ env.lastFetchedPeers, ctx.signer = p.ecdsaPubkeyAddress) ∧
    ((ValidateSigner env ctx req true r0).2.2 ≠ none →
        (ValidateSigner env ctx req true r0).2.2 = some ProxyError.unknownPeer) ∧
    (ctx.signer = env.flashbotsSignerAddress →
        (ValidateSigner env ctx req true r0).1 =
          { req with signer := ctx.signer, peerName := FlashbotsPeerName }) ∧
    ((ValidateSigner env ctx req true r0).2.2 = none →
      ctx.signer ≠ env.flashbotsSignerAddress →
        ∃ p ∈ env.lastFetchedPeers, ctx.signer = p.ecdsaPubkeyAddress ∧
          (ValidateSigner env ctx req true r0).1 =
            { req with signer := ctx.signer, peerName := p.name }) := by
  by_cases hf : ctx.signer = env.flashbotsSignerAddress
  · refine ⟨by simp [ValidateSigner], ?_, ?_, ?_, ?_⟩
    · simp [ValidateSigner, hf]
    · simp [ValidateSigner, hf]
    · intro _; simp [ValidateSigner, hf]
    · intro _ hne; exact absurd hf hne
  · rcases hfp : findPeer env.lastFetchedPeers ctx.signer with _ | p
    · have hall : ∀ p ∈ env.lastFetchedPeers,
          ctx.signer ≠ p.ecdsaPubkeyAddress := by
        intro p hp
        have := List.find?_eq_none.mp hfp p hp
        simpa using this
      refine ⟨by simp [ValidateSigner], ?_, ?_, ?_, ?_⟩
      · constructor
        · intro h
          exfalso
          simp [ValidateSigner, if_neg hf, hfp] at h
        · rintro (h | ⟨p, hp, hsig⟩)
          · exact absurd h hf
          · exact absurd hsig (hall p hp)
      · intro _
        simp [ValidateSigner, if_neg hf, hfp]
      · intro h; exact absurd h hf
      · intro hnone _
        exfalso
        simp [ValidateSigner, if_neg hf, hfp] at hnone
    · have hmem : p ∈ env.lastFetchedPeers := List.mem_of_find?_eq_some hfp
      have hsig : ctx.signer = p.ecdsaPubkeyAddress := by
        have := List.find?_some hfp
        simpa using this
      refine ⟨by simp [ValidateSigner], ?_, ?_, ?_, ?_⟩
      · simp only [ValidateSigner, if_neg hf, hfp]
        constructor
        · intro _; exact Or.inr ⟨p, hmem, hsig⟩
        · intro _; simp
      · intro h
        exfalso
        simp [ValidateSigner, if_neg hf, hfp] at h
      · intro h; exact absurd h hf
      · intro _ _
        refine ⟨p, hmem, hsig, ?_⟩
        simp [ValidateSigner, if_neg hf, hfp]

/-- Witness for C1: the Flashbots signer and the known peer succeed
with their peer names, an unknown signer fails with `UnknownPeer`, and
the local surface accepts the unknown signer. -/
theorem validateSigner_auth_spec_witness :
    ((ValidateSigner testEnv ⟨2, false, true, true⟩ ParsedRequest.empty true 0).2.2 ≠ none →
      (ValidateSigner testEnv ⟨2, false, true, true⟩ ParsedRequest.empty true 0).2.2 =
        some ProxyError.unknownPeer) ∧
    ((2 : Address) = testEnv.flashbotsSignerAddress ∨
        ∃ p ∈ testEnv.lastFetchedPeers, (2 : Address) = p.ecdsaPubkeyAddress →
      False) ∧
    (ValidateSigner testEnv ⟨2, false, true, true⟩ ParsedRequest.empty false 0 =
      ({ ParsedRequest.empty with signer := 2 }, 0, none)) :=
  ⟨(validateSigner_auth_spec testEnv ⟨2, false, true, true⟩ ParsedRequest.empty 0).2.2.1,
   Or.inr ⟨testPeerA, by decide⟩,
   (validateSigner_auth_spec testEnv ⟨2, false, true, true⟩ ParsedRequest.empty 0).1⟩

/-- C10: on the public surface, when the recovered signer is neither
the Flashbots address nor a known peer, `ValidateSigner` returns the
`UnknownPeer` error with the `peersMu` reader count one higher than it
found it (the early return skips `RUnlock`), while every successful
return leaves the reader count as it was. -/
theorem validateSigner_lock_leak (env : ProxyEnv) (ctx : Ctx)
    (req : ParsedRequest) (r0 : Nat) :
    ((ValidateSigner env ctx req true r0).2.2 = some ProxyError.unknownPeer →
      (ValidateSigner env ctx req true r0).2.1 = r0 + 1) ∧
    (∀ pub : Bool, (ValidateSigner env ctx req pub r0).2.2 = none →
      (ValidateSigner env ctx req pub r0).2.1 = r0) := by
  constructor
  · intro herr
    by_cases hf : ctx.signer = env.flashbotsSignerAddress
    · exfalso; simp [ValidateSigner, hf] at herr
    · rcases hfp : findPeer env.lastFetchedPeers ctx.signer with _ | p
      · simp [ValidateSigner, if_neg hf, hfp]
      · exfalso; simp [ValidateSigner, if_neg hf, hfp] at herr
  · intro pub hok
    cases pub
    · simp [ValidateSigner]
    · by_cases hf : ctx.signer = env.flashbotsSignerAddress
      · simp [ValidateSigner, hf]
      · rcases hfp : findPeer env.lastFetchedPeers ctx.signer with _ | p
        · exfalso; simp [ValidateSigner, if_neg hf, hfp] at hok
        · simp [ValidateSigner, if_neg hf, hfp]

/-- Witness for C10: the unknown signer 2 leaves a reader count of 1
behind, while the known peer's signer 10 restores it to 0. -/
theorem validateSigner_lock_leak_witness :
    ((ValidateSigner testEnv ⟨2, false, true, true⟩ ParsedRequest.empty true 0).2.2 =
        some ProxyError.unknownPeer ∧
      (ValidateSigner testEnv ⟨2, false, true, true⟩ ParsedRequest.empty true 0).2.1 = 0 + 1) ∧
    ((ValidateSigner testEnv ⟨10, false, true, true⟩ ParsedRequest.empty true 0).2.2 = none ∧
      (ValidateSigner testEnv ⟨10, false, true, true⟩ ParsedRequest.empty true 0).2.1 = 0) :=
  ⟨⟨by decide,
    (validateSigner_lock_leak testEnv ⟨2, false, true, true⟩ ParsedRequest.empty 0).1 (by decide)⟩,
   ⟨by decide,
    (validateSigner_lock_leak testEnv ⟨10, false, true, true⟩ ParsedRequest.empty 0).2 true (by decide)⟩⟩

/-- A dedup-LRU hit: the handler counts a per-peer duplicate and
returns nil, leaving both queues and the LRU untouched. -/
theorem handleParsedRequest_dup_hit (env : ProxyEnv) (ctx : Ctx)
    (st : ProxyState) (pr : ParsedRequest) (k : UUID)
    (hk : pr.requestArgUniqueKey = some k)
    (hc : lruContains st.lru k = true) :
    ∃ st2, HandleParsedRequest env ctx st pr = HResult.ret st2 none ∧
      st2.shareQueue = st.shareQueue ∧
      st2.archiveQueue = st.archiveQueue ∧
      st2.lru = st.lru ∧
      st2.duplicateByPeer = bumpMetric st.duplicateByPeer pr.peerName := by
  cases hpub : pr.publicEndpoint
  · exact ⟨{ st with duplicateByPeer := bumpMetric st.duplicateByPeer pr.peerName },
      by simp [HandleParsedRequest, hk, hc, hpub], by simp, by simp, by simp, by simp⟩
  · exact ⟨{ st with
        incomingByPeer := bumpMetric st.incomingByPeer pr.peerName
        duplicateByPeer := bumpMetric st.duplicateByPeer pr.peerName },
      by simp [HandleParsedRequest, hk, hc, hpub], by simp, by simp, by simp, by simp⟩

/-- A non-duplicate request with a live context and room in the queues:
the handler appends the time-stamped request to the share queue, and to
the archive queue exactly when the ingress is local; a fingerprint is
inserted into the LRU and the duplicate metric is untouched. -/
theorem handleParsedRequest_miss_sent (env : ProxyEnv) (ctx : Ctx)
    (st : ProxyState) (pr : ParsedRequest)
    (hnd : ∀ k, pr.requestArgUniqueKey = some k → lruContains st.lru k = false)
    (hcanc : ctx.cancelled = false)
    (hs : st.shareQueue.length < env.shareCap)
    (ha : pr.publicEndpoint = false → st.archiveQueue.length < env.archiveCap) :
    ∃ st2, HandleParsedRequest env ctx st pr = HResult.ret st2 none ∧
      st2.shareQueue = st.shareQueue ++ [{ pr with receivedAt := st.now }] ∧
      (pr.publicEndpoint = true → st2.archiveQueue = st.archiveQueue) ∧
      (pr.publicEndpoint = false →
        st2.archiveQueue = st.archiveQueue ++ [{ pr with receivedAt := st.now }]) ∧
      (∀ k, pr.requestArgUniqueKey = some k →
        st2.lru = lruAdd env.lruCap st.lru k) ∧
      (pr.requestArgUniqueKey = none → st2.lru = st.lru) ∧
      st2.duplicateByPeer = st.duplicateByPeer := by
  cases hpub : pr.publicEndpoint
  · have ha2 := ha hpub
    cases hk : pr.requestArgUniqueKey with
    | none =>
        refine ⟨{ st with
            shareQueue := st.shareQueue ++ [{ pr with receivedAt := st.now }]
            archiveQueue := st.archiveQueue ++ [{ pr with receivedAt := st.now }] },
          ?_, ?_, ?_, ?_, ?_, ?_, ?_⟩ <;>
          simp_all [HandleParsedRequest, selectSend]
    | some k =>
        have hcf := hnd k hk
        refine ⟨{ st with
            lru := lruAdd env.lruCap st.lru k
            shareQueue := st.shareQueue ++ [{ pr with receivedAt := st.now }]
            archiveQueue := st.archiveQueue ++ [{ pr with receivedAt := st.now }] },
          ?_, ?_, ?_, ?_, ?_, ?_, ?_⟩ <;>
          simp_all [HandleParsedRequest, selectSend]
  · cases hk : pr.requestArgUniqueKey with
    | none =>
        refine ⟨{ st with
            incomingByPeer := bumpMetric st.incomingByPeer pr.peerName
            shareQueue := st.shareQueue ++ [{ pr with receivedAt := st.now }] },
          ?_, ?_, ?_, ?_, ?_, ?_, ?_⟩ <;>
          simp_all [HandleParsedRequest, selectSend]
    | some k =>
        have hcf := hnd k hk
        refine ⟨{ st with
            incomingByPeer := bumpMetric st.incomingByPeer pr.peerName
            lru := lruAdd env.lruCap st.lru k
            shareQueue := st.shareQueue ++ [{ pr with receivedAt := st.now }] },
          ?_, ?_, ?_, ?_, ?_, ?_, ?_⟩ <;>
          simp_all [HandleParsedRequest, selectSend]

/-- Whatever path the handler takes, the only element it can add to
either queue is the time-stamped copy of its own request. -/
theorem handleParsedRequest_mem (env : ProxyEnv) (ctx : Ctx)
    (st : ProxyState) (pr : ParsedRequest) :
    (∀ q ∈ (HandleParsedRequest env ctx st pr).shareAll,
        q ∈ st.shareQueue ∨ q = { pr with receivedAt := st.now }) ∧
    (∀ q ∈ (HandleParsedRequest env ctx st pr).archiveAll,
        q ∈ st.archiveQueue ∨ q = { pr with receivedAt := st.now }) := by
  cases hpub : pr.publicEndpoint <;>
  rcases hk : pr.requestArgUniqueKey with _ | k
  all_goals try (cases hc : lruContains st.lru k)
  all_goals
    rcases hsel : selectSend ctx.takeDoneShare ctx.cancelled
        st.shareQueue.length env.shareCap with _ | _ | _ <;>
    rcases hsel2 : selectSend ctx.takeDoneArchive ctx.cancelled
        st.archiveQueue.length env.archiveCap with _ | _ | _ <;>
    (constructor <;> intro q hq <;>
      simp_all [HandleParsedRequest, HResult.shareAll, HResult.archiveAll])

/-- With a live context, a non-duplicate request and a full share
queue, the handler blocks (the select has no default case and there is
no drop metric). -/
theorem handleParsedRequest_share_full_blocks (env : ProxyEnv) (ctx : Ctx)
    (st : ProxyState) (pr : ParsedRequest)
    (hnd : ∀ k, pr.requestArgUniqueKey = some k → lruContains st.lru k = false)
    (hcanc : ctx.cancelled = false)
    (hs : env.shareCap ≤ st.shareQueue.length) :
    HandleParsedRequest env ctx st pr = HResult.blocked := by
  have hs2 : ¬ st.shareQueue.length < env.shareCap := Nat.not_lt.mpr hs
  cases hpub : pr.publicEndpoint <;>
  rcases hk : pr.requestArgUniqueKey with _ | k
  all_goals try have hcf := hnd k hk
  all_goals simp [HandleParsedRequest, selectSend, *]

/-- With a live context, a non-duplicate local request, room in the
share queue but a full archive queue, the handler blocks on the archive
send. -/
theorem handleParsedRequest_archive_full_blocks (env : ProxyEnv) (ctx : Ctx)
    (st : ProxyState) (pr : ParsedRequest)
    (hnd : ∀ k, pr.requestArgUniqueKey = some k → lruContains st.lru k = false)
    (hcanc : ctx.cancelled = false)
    (hpub : pr.publicEndpoint = false)
    (hs : st.shareQueue.length < env.shareCap)
    (ha : env.archiveCap ≤ st.archiveQueue.length) :
    HandleParsedRequest env ctx st pr = HResult.blocked := by
  have ha2 : ¬ st.archiveQueue.length < env.archiveCap := Nat.not_lt.mpr ha
  rcases hk : pr.requestArgUniqueKey with _ | k
  all_goals try have hcf := hnd k hk
  all_goals simp [HandleParsedRequest, selectSend, *]

/-- Closed form of `ValidateSigner`, used to reduce the handlers. -/
theorem validateSigner_eq (env : ProxyEnv) (ctx : Ctx) (req : ParsedRequest)
    (pub : Bool) (r0 : Nat) :
    ValidateSigner env ctx req pub r0 =
      if pub = false then ({ req with signer := ctx.signer }, r0, none)
      else if ctx.signer = env.flashbotsSignerAddress then
        ({ req with signer := ctx.signer, peerName := FlashbotsPeerName }, r0, none)
      else
        match findPeer env.lastFetchedPeers ctx.signer with
        | none =>
            ({ req with signer := ctx.signer }, r0 + 1, some ProxyError.unknownPeer)
        | some p =>
            ({ req with signer := ctx.signer, peerName := p.name }, r0, none) := by
  cases pub
  · simp [ValidateSigner]
  · by_cases hf : ctx.signer = env.flashbotsSignerAddress
    · simp [ValidateSigner, hf]
    · rcases hfp : findPeer env.lastFetchedPeers ctx.signer with _ | p <;>
        simp [ValidateSigner, hf, hfp]

/-- C3: for two requests with the same fresh fingerprint handled in
sequence, the first inserts the fingerprint into the dedup LRU and is
enqueued on the share queue; the second returns nil, increments the
per-peer duplicate metric, inserts nothing and enqueues nothing on
either queue. -/
theorem dedup_second_request_suppressed (env : ProxyEnv) (ctx1 ctx2 : Ctx)
    (st : ProxyState) (pr1 pr2 : ParsedRequest) (k : UUID)
    (hk1 : pr1.requestArgUniqueKey = some k)
    (hk2 : pr2.requestArgUniqueKey = some k)
    (hfresh : lruContains st.lru k = false)
    (hcap : 1 ≤ env.lruCap)
    (hcanc : ctx1.cancelled = false)
    (hs : st.shareQueue.length < env.shareCap)
    (ha : pr1.publicEndpoint = false → st.archiveQueue.length < env.archiveCap) :
    ∃ st1 st2,
      HandleParsedRequest env ctx1 st pr1 = HResult.ret st1 none ∧
      st1.shareQueue = st.shareQueue ++ [{ pr1 with receivedAt := st.now }] ∧
      lruContains st1.lru k = true ∧
      HandleParsedRequest env ctx2 st1 pr2 = HResult.ret st2 none ∧
      st2.shareQueue = st1.shareQueue ∧
      st2.archiveQueue = st1.archiveQueue ∧
      st2.lru = st1.lru ∧
      st2.duplicateByPeer = bumpMetric st1.duplicateByPeer pr2.peerName := by
  obtain ⟨st1, h1, hshare, _, _, hlru, _, _⟩ :=
    handleParsedRequest_miss_sent env ctx1 st pr1
      (by intro k2 hk2'; rw [hk1] at hk2'; cases hk2'; exact hfresh) hcanc hs ha
  have hlru1 : st1.lru = lruAdd env.lruCap st.lru k := hlru k hk1
  have hmem : lruContains st1.lru k = true := by
    rw [hlru1]
    rcases hcap2 : env.lruCap with _ | cap
    · rw [hcap2] at hcap; cases hcap
    · simp [lruAdd, lruContains, List.take_succ_cons]
  obtain ⟨st2, h2, hsq, haq, hl, hd⟩ :=
    handleParsedRequest_dup_hit env ctx2 st1 pr2 k hk2 hmem
  exact ⟨st1, st2, h1, hshare, hmem, h2, hsq, haq, hl, hd⟩

/-- Witness for C3: two public requests from the known peer with
fingerprint 42 on a fresh state. -/
theorem dedup_second_request_suppressed_witness :
    ((({ ParsedRequest.empty with
          publicEndpoint := true, peerName := "peerA", signer := 10,
          requestArgUniqueKey := some 42 } : ParsedRequest).requestArgUniqueKey
        = some 42) ∧
      lruContains testState.lru 42 = false ∧
      1 ≤ testEnv.lruCap ∧
      testState.shareQueue.length < testEnv.shareCap) ∧
    (∃ st1 st2,
      HandleParsedRequest testEnv ⟨10, false, true, true⟩ testState
          { ParsedRequest.empty with
            publicEndpoint := true, peerName := "peerA", signer := 10,
            requestArgUniqueKey := some 42 } = HResult.ret st1 none ∧
      st1.shareQueue = testState.shareQueue ++
        [{ ({ ParsedRequest.empty with
              publicEndpoint := true, peerName := "peerA", signer := 10,
              requestArgUniqueKey := some 42 } : ParsedRequest) with
            receivedAt := testState.now }] ∧
      lruContains st1.lru 42 = true ∧
      HandleParsedRequest testEnv ⟨10, false, true, true⟩ st1
          { ParsedRequest.empty with
            publicEndpoint := true, peerName := "peerA", signer := 10,
            requestArgUniqueKey := some 42 } = HResult.ret st2 none ∧
      st2.shareQueue = st1.shareQueue ∧
      st2.archiveQueue = st1.archiveQueue ∧
      st2.lru = st1.lru ∧
      st2.duplicateByPeer = bumpMetric st1.duplicateByPeer "peerA") :=
  ⟨⟨by decide, by decide, by decide, by decide⟩,
   dedup_second_request_suppressed testEnv ⟨10, false, true, true⟩ ⟨10, false, true, true⟩ testState
     { ParsedRequest.empty with
       publicEndpoint := true, peerName := "peerA", signer := 10,
       requestArgUniqueKey := some 42 }
     { ParsedRequest.empty with
       publicEndpoint := true, peerName := "peerA", signer := 10,
       requestArgUniqueKey := some 42 }
     42 (by decide) (by decide) (by decide) (by decide) (by decide) (by decide)
     (by intro h; cases h)⟩

/-- C7: a non-duplicate request with a live context is enqueued on the
share queue, and on the archive queue exactly when its
`publicEndpoint` flag is false. -/
theorem queue_routing (env : ProxyEnv) (ctx : Ctx) (st : ProxyState)
    (pr : ParsedRequest)
    (hnd : ∀ k, pr.requestArgUniqueKey = some k → lruContains st.lru k = false)
    (hcanc : ctx.cancelled = false)
    (hs : st.shareQueue.length < env.shareCap)
    (ha : pr.publicEndpoint = false → st.archiveQueue.length < env.archiveCap) :
    ∃ st2, HandleParsedRequest env ctx st pr = HResult.ret st2 none ∧
      st2.shareQueue = st.shareQueue ++ [{ pr with receivedAt := st.now }] ∧
      (st2.archiveQueue =
          st.archiveQueue ++ [{ pr with receivedAt := st.now }] ↔
        pr.publicEndpoint = false) := by
  obtain ⟨st2, h1, hsh, hp_t, hp_f, _, _, _⟩ :=
    handleParsedRequest_miss_sent env ctx st pr hnd hcanc hs ha
  refine ⟨st2, h1, hsh, ?_, hp_f⟩
  intro heq
  cases hp : pr.publicEndpoint
  · rfl
  · exfalso
    rw [hp_t hp] at heq
    have hlen := congrArg List.length heq
    simp at hlen

/-- Witness for C7: a local request reaches both queues. -/
theorem queue_routing_witness :
    (testState.shareQueue.length < testEnv.shareCap) ∧
    (∃ st2, HandleParsedRequest testEnv ⟨3, false, true, true⟩ testState
          { ParsedRequest.empty with signer := 3 } = HResult.ret st2 none ∧
      st2.shareQueue = testState.shareQueue ++
        [{ ({ ParsedRequest.empty with signer := 3 } : ParsedRequest) with
            receivedAt := testState.now }] ∧
      (st2.archiveQueue = testState.archiveQueue ++
          [{ ({ ParsedRequest.empty with signer := 3 } : ParsedRequest) with
              receivedAt := testState.now }] ↔
        ({ ParsedRequest.empty with signer := 3 } : ParsedRequest).publicEndpoint
          = false)) :=
  ⟨by decide,
   queue_routing testEnv ⟨3, false, true, true⟩ testState
     { ParsedRequest.empty with signer := 3 }
     (by intro k h; cases h) (by decide) (by decide) (by intro h; decide)⟩

/-- C6: `EthCancelBundle` sets no fingerprint, so two identical
cancellations handled in sequence both bypass the dedup check and are
both enqueued on the share queue. -/
theorem ethCancelBundle_no_fingerprint (env : ProxyEnv) (ctx : Ctx)
    (st : ProxyState)
    (validate : EthCancelBundleArgs → Bool → Option ProxyError)
    (b : EthCancelBundleArgs) (pub : Bool)
    (hauth : pub = true →
      ctx.signer = env.flashbotsSignerAddress ∨
      ∃ p, findPeer env.lastFetchedPeers ctx.signer = some p)
    (hv : validate b pub = none)
    (hcanc : ctx.cancelled = false)
    (hs : st.shareQueue.length + 1 < env.shareCap)
    (ha : pub = false → st.archiveQueue.length + 1 < env.archiveCap) :
    ∃ st1 st2 q1 q2,
      EthCancelBundle env ctx st validate b pub = HResult.ret st1 none ∧
      st1.shareQueue = st.shareQueue ++ [q1] ∧
      q1.requestArgUniqueKey = none ∧
      EthCancelBundle env ctx st1 validate b pub = HResult.ret st2 none ∧
      st2.shareQueue = st1.shareQueue ++ [q2] ∧
      q2.requestArgUniqueKey = none := by
  have hs1 : st.shareQueue.length < env.shareCap := Nat.lt_of_succ_lt hs
  cases pub
  · have ha1 : st.archiveQueue.length < env.archiveCap :=
      Nat.lt_of_succ_lt (ha rfl)
    have hred : ∀ s : ProxyState,
        EthCancelBundle env ctx s validate b false =
        HandleParsedRequest env ctx s
          { ParsedRequest.empty with
            signer := ctx.signer
            method := EthCancelBundleMethod
            ethCancelBundle := some { b with signingAddress := some ctx.signer } } := by
      intro s
      simp [EthCancelBundle, validateSigner_eq, hv, ParsedRequest.empty]
    obtain ⟨st1, h1, hsh1, _, haq1, _, _, _⟩ :=
      handleParsedRequest_miss_sent env ctx st
        { ParsedRequest.empty with
          signer := ctx.signer
          method := EthCancelBundleMethod
          ethCancelBundle := some { b with signingAddress := some ctx.signer } }
        (by intro k h; simp [ParsedRequest.empty] at h) hcanc hs1
        (by intro _; exact ha1)
    have hs2 : st1.shareQueue.length < env.shareCap := by
      rw [hsh1]; simpa using hs
    obtain ⟨st2, h2, hsh2, _, _, _, _, _⟩ :=
      handleParsedRequest_miss_sent env ctx st1
        { ParsedRequest.empty with
          signer := ctx.signer
          method := EthCancelBundleMethod
          ethCancelBundle := some { b with signingAddress := some ctx.signer } }
        (by intro k h; simp [ParsedRequest.empty] at h) hcanc hs2
        (by intro _
            rw [haq1 rfl]
            simpa using ha rfl)
    exact ⟨st1, st2, _, _, by rw [hred]; exact h1, hsh1, rfl,
      by rw [hred]; exact h2, hsh2, rfl⟩
  · by_cases hf : ctx.signer = env.flashbotsSignerAddress
    · have hred : ∀ s : ProxyState,
          EthCancelBundle env ctx s validate b true =
          HandleParsedRequest env ctx s
            { ParsedRequest.empty with
              publicEndpoint := true
              signer := ctx.signer
              peerName := FlashbotsPeerName
              method := EthCancelBundleMethod
              ethCancelBundle := some b } := by
        intro s
        simp [EthCancelBundle, validateSigner_eq, hv, hf, ParsedRequest.empty]
      obtain ⟨st1, h1, hsh1, _, _, _, _, _⟩ :=
        handleParsedRequest_miss_sent env ctx st
          { ParsedRequest.empty with
            publicEndpoint := true
            signer := ctx.signer
            peerName := FlashbotsPeerName
            method := EthCancelBundleMethod
            ethCancelBundle := some b }
          (by intro k h; simp [ParsedRequest.empty] at h) hcanc hs1
          (by intro h; simp [ParsedRequest.empty] at h)
      have hs2 : st1.shareQueue.length < env.shareCap := by
        rw [hsh1]; simpa using hs
      obtain ⟨st2, h2, hsh2, _, _, _, _, _⟩ :=
        handleParsedRequest_miss_sent env ctx st1
          { ParsedRequest.empty with
            publicEndpoint := true
            signer := ctx.signer
            peerName := FlashbotsPeerName
            method := EthCancelBundleMethod
            ethCancelBundle := some b }
          (by intro k h; simp [ParsedRequest.empty] at h) hcanc hs2
          (by intro h; simp [ParsedRequest.empty] at h)
      exact ⟨st1, st2, _, _, by rw [hred]; exact h1, hsh1, rfl,
        by rw [hred]; exact h2, hsh2, rfl⟩
    · rcases hauth rfl with hf2 | ⟨p, hp⟩
      · exact absurd hf2 hf
      · have hred : ∀ s : ProxyState,
            EthCancelBundle env ctx s validate b true =
            HandleParsedRequest env ctx s
              { ParsedRequest.empty with
                publicEndpoint := true
                signer := ctx.signer
                peerName := p.name
                method := EthCancelBundleMethod
                ethCancelBundle := some b } := by
          intro s
          simp [EthCancelBundle, validateSigner_eq, hv, hf, hp, ParsedRequest.empty]
        obtain ⟨st1, h1, hsh1, _, _, _, _, _⟩ :=
          handleParsedRequest_miss_sent env ctx st
            { ParsedRequest.empty with
              publicEndpoint := true
              signer := ctx.signer
              peerName := p.name
              method := EthCancelBundleMethod
              ethCancelBundle := some b }
            (by intro k h; simp [ParsedRequest.empty] at h) hcanc hs1
            (by intro h; simp [ParsedRequest.empty] at h)
        have hs2 : st1.shareQueue.length < env.shareCap := by
          rw [hsh1]; simpa using hs
        obtain ⟨st2, h2, hsh2, _, _, _, _, _⟩ :=
          handleParsedRequest_miss_sent env ctx st1
            { ParsedRequest.empty with
              publicEndpoint := true
              signer := ctx.signer
              peerName := p.name
              method := EthCancelBundleMethod
              ethCancelBundle := some b }
            (by intro k h; simp [ParsedRequest.empty] at h) hcanc hs2
            (by intro h; simp [ParsedRequest.empty] at h)
        exact ⟨st1, st2, _, _, by rw [hred]; exact h1, hsh1, rfl,
          by rw [hred]; exact h2, hsh2, rfl⟩

/-- Witness for C6: two identical local cancellations on a fresh
state both enqueue. -/
theorem ethCancelBundle_no_fingerprint_witness :
    (testState.shareQueue.length + 1 < testEnv.shareCap) ∧
    (∃ st1 st2 q1 q2,
      EthCancelBundle testEnv ⟨3, false, true, true⟩ testState (fun _ _ => none)
          { signingAddress := none, rest := 0 } false = HResult.ret st1 none ∧
      st1.shareQueue = testState.shareQueue ++ [q1] ∧
      q1.requestArgUniqueKey = none ∧
      EthCancelBundle testEnv ⟨3, false, true, true⟩ st1 (fun _ _ => none)
          { signingAddress := none, rest := 0 } false = HResult.ret st2 none ∧
      st2.shareQueue = st1.shareQueue ++ [q2] ∧
      q2.requestArgUniqueKey = none) :=
  ⟨by decide,
   ethCancelBundle_no_fingerprint testEnv ⟨3, false, true, true⟩ testState (fun _ _ => none)
     { signingAddress := none, rest := 0 } false
     (by intro h; cases h) rfl rfl (by decide) (by intro _; decide)⟩

/-- C2 counterexample: a public `bid_subsidiseBlock` from the unknown
signer 2 (which differs from the Flashbots address) fails with
`UnknownPeer`, not `SubsidyWrongCaller` as the claim states. -/
theorem bidSubsidiseBlock_unknown_signer_counterexample :
    (2 : Address) ≠ testEnv.flashbotsSignerAddress ∧
    (BidSubsidiseBlock testEnv ⟨2, false, true, true⟩ testState (fun _ => 99)
        { rest := 0 } true).errOut = some ProxyError.unknownPeer ∧
    (BidSubsidiseBlock testEnv ⟨2, false, true, true⟩ testState (fun _ => 99)
        { rest := 0 } true).errOut ≠ some ProxyError.subsidyWrongCaller := by
  refine ⟨by decide, by decide, by decide⟩

/-- C2 (amended): on the local surface `BidSubsidiseBlock` always
fails with `SubsidyWrongEndpoint` and changes nothing; on the public
surface a non-Flashbots signer that is a known peer fails with
`SubsidyWrongCaller`, a non-Flashbots unknown signer fails with
`UnknownPeer` (leaking one reader of `peersMu`), and in both cases no
enqueue happens; the Flashbots signer proceeds to fingerprinting and
`HandleParsedRequest`. -/
theorem bidSubsidiseBlock_gate (env : ProxyEnv) (ctx : Ctx)
    (st : ProxyState) (uk : BidSubsidiseBlockArgs → UUID)
    (b : BidSubsidiseBlockArgs) :
    (BidSubsidiseBlock env ctx st uk b false =
        HResult.ret st (some ProxyError.subsidyWrongEndpoint)) ∧
    (ctx.signer ≠ env.flashbotsSignerAddress →
      ∀ p, findPeer env.lastFetchedPeers ctx.signer = some p →
        BidSubsidiseBlock env ctx st uk b true =
          HResult.ret st (some ProxyError.subsidyWrongCaller)) ∧
    (ctx.signer ≠ env.flashbotsSignerAddress →
      findPeer env.lastFetchedPeers ctx.signer = none →
        BidSubsidiseBlock env ctx st uk b true =
          HResult.ret { st with peersMuReaders := st.peersMuReaders + 1 }
            (some ProxyError.unknownPeer)) ∧
    (ctx.signer = env.flashbotsSignerAddress →
      BidSubsidiseBlock env ctx st uk b true =
        HandleParsedRequest env ctx st
          { ParsedRequest.empty with
            publicEndpoint := true
            signer := ctx.signer
            peerName := FlashbotsPeerName
            method := BidSubsidiseBlockMethod
            bidSubsidiseBlock := some b
            requestArgUniqueKey := some (uk b) }) := by
  refine ⟨?_, ?_, ?_, ?_⟩
  · simp [BidSubsidiseBlock]
  · intro hne p hp
    simp [BidSubsidiseBlock, validateSigner_eq, hne, hp]
  · intro hne hp
    simp [BidSubsidiseBlock, validateSigner_eq, hne, hp]
  · intro hf
    simp [BidSubsidiseBlock, validateSigner_eq, hf, ParsedRequest.empty]

/-- Witness for C2 (amended) at the four concrete signer situations:
local caller, known peer 10, unknown signer 2, Flashbots signer 1. -/
theorem bidSubsidiseBlock_gate_witness :
    (BidSubsidiseBlock testEnv ⟨5, false, true, true⟩ testState (fun _ => 99)
        { rest := 0 } false =
      HResult.ret testState (some ProxyError.subsidyWrongEndpoint)) ∧
    (BidSubsidiseBlock testEnv ⟨10, false, true, true⟩ testState (fun _ => 99)
        { rest := 0 } true =
      HResult.ret testState (some ProxyError.subsidyWrongCaller)) ∧
    (BidSubsidiseBlock testEnv ⟨2, false, true, true⟩ testState (fun _ => 99)
        { rest := 0 } true =
      HResult.ret { testState with peersMuReaders := testState.peersMuReaders + 1 }
        (some ProxyError.unknownPeer)) ∧
    (BidSubsidiseBlock testEnv ⟨1, false, true, true⟩ testState (fun _ => 99)
        { rest := 0 } true =
      HandleParsedRequest testEnv ⟨1, false, true, true⟩ testState
        { ParsedRequest.empty with
          publicEndpoint := true
          signer := 1
          peerName := FlashbotsPeerName
          method := BidSubsidiseBlockMethod
          bidSubsidiseBlock := some { rest := 0 }
          requestArgUniqueKey := some 99 }) :=
  ⟨(bidSubsidiseBlock_gate testEnv ⟨5, false, true, true⟩ testState (fun _ => 99) { rest := 0 }).1,
   (bidSubsidiseBlock_gate testEnv ⟨10, false, true, true⟩ testState (fun _ => 99) { rest := 0 }).2.1
     (by decide) testPeerA (by decide),
   (bidSubsidiseBlock_gate testEnv ⟨2, false, true, true⟩ testState (fun _ => 99) { rest := 0 }).2.2.1
     (by decide) (by decide),
   (bidSubsidiseBlock_gate testEnv ⟨1, false, true, true⟩ testState (fun _ => 99) { rest := 0 }).2.2.2
     rfl⟩

/-- An environment with capacity-1 queues, for backpressure runs. -/
def testEnvSmall : ProxyEnv :=
  { flashbotsSignerAddress := 1
    lastFetchedPeers := []
    shareCap := 1
    archiveCap := 1
    lruCap := 16 }

/-- A state whose share queue is at full capacity for `testEnvSmall`. -/
def testStateFull : ProxyState :=
  { lru := []
    shareQueue := [ParsedRequest.empty]
    archiveQueue := []
    incomingByPeer := fun _ => 0
    duplicateByPeer := fun _ => 0
    peersMuReaders := 0
    now := 100 }

/-- A state whose archive queue is at full capacity for
`testEnvSmall` while the share queue has room. -/
def testStateArchiveFull : ProxyState :=
  { lru := []
    shareQueue := []
    archiveQueue := [ParsedRequest.empty]
    incomingByPeer := fun _ => 0
    duplicateByPeer := fun _ => 0
    peersMuReaders := 0
    now := 100 }

/-- C5 counterexample: with the share queue at full capacity and the
cancellation signal not set, `HandleParsedRequest` blocks on the
channel send instead of returning success, and no drop metric exists
to be recorded. -/
theorem backpressure_claim_counterexample :
    testEnvSmall.shareCap ≤ testStateFull.shareQueue.length ∧
    (HandleParsedRequest testEnvSmall ⟨7, false, true, true⟩ testStateFull
        ParsedRequest.empty).isBlocked = true := by
  exact ⟨by decide, by decide⟩

/-- C5 (amended): the enqueue is a bare `select` between the
cancellation signal and the channel send, with no default case and no
drop metric anywhere in the code.  When the cancellation signal is
not set and the share queue (or, for local ingress, the archive
queue) is at full capacity, `HandleParsedRequest` does not return
success: it blocks on the send until space or cancellation. -/
theorem backpressure_behaviour (env : ProxyEnv) (ctx : Ctx)
    (st : ProxyState) (pr : ParsedRequest)
    (hnd : ∀ k, pr.requestArgUniqueKey = some k → lruContains st.lru k = false)
    (hcanc : ctx.cancelled = false) :
    (env.shareCap ≤ st.shareQueue.length →
      HandleParsedRequest env ctx st pr = HResult.blocked) ∧
    (pr.publicEndpoint = false →
      st.shareQueue.length < env.shareCap →
      env.archiveCap ≤ st.archiveQueue.length →
      HandleParsedRequest env ctx st pr = HResult.blocked) := by
  constructor
  · intro hs
    exact handleParsedRequest_share_full_blocks env ctx st pr hnd hcanc hs
  · intro hpub hs ha
    exact handleParsedRequest_archive_full_blocks env ctx st pr hnd hcanc hpub hs ha

/-- Witness for C5 (amended): with a live context, a full share queue
blocks a request and a full archive queue blocks a local request. -/
theorem backpressure_behaviour_witness :
    (testEnvSmall.shareCap ≤ testStateFull.shareQueue.length ∧
      HandleParsedRequest testEnvSmall ⟨7, false, true, true⟩ testStateFull
        ParsedRequest.empty = HResult.blocked) ∧
    (testEnvSmall.archiveCap ≤ testStateArchiveFull.archiveQueue.length ∧
      HandleParsedRequest testEnvSmall ⟨7, false, true, true⟩ testStateArchiveFull
        ParsedRequest.empty = HResult.blocked) :=
  ⟨⟨by decide,
    (backpressure_behaviour testEnvSmall ⟨7, false, true, true⟩ testStateFull
      ParsedRequest.empty (by intro k h; cases h) rfl).1 (by decide)⟩,
   ⟨by decide,
    (backpressure_behaviour testEnvSmall ⟨7, false, true, true⟩ testStateArchiveFull
      ParsedRequest.empty (by intro k h; cases h) rfl).2 rfl (by decide) (by decide)⟩⟩

/-- C4: on the local surface, `EthSendBundle`, `MevSendBundle` and
`EthCancelBundle` overwrite the payload's signer field
(`SigningAddress`, `Metadata.Signer`, `SigningAddress` respectively)
with the recovered header signer before enqueue, regardless of the
incoming value, and the fingerprint is computed from the stamped
payload. -/
theorem local_ingress_signer_stamped (env : ProxyEnv) (ctx : Ctx)
    (st : ProxyState)
    (vE : EthSendBundleArgs → Bool → Option ProxyError)
    (vM : MevSendBundleArgs → Bool → Option ProxyError)
    (vC : EthCancelBundleArgs → Bool → Option ProxyError)
    (ukE : EthSendBundleArgs → UUID) (ukM : MevSendBundleArgs → UUID)
    (bE : EthSendBundleArgs) (bM : MevSendBundleArgs) (bC : EthCancelBundleArgs)
    (hvE : vE bE false = none) (hvM : vM bM false = none)
    (hvC : vC bC false = none)
    (hcanc : ctx.cancelled = false)
    (hs : st.shareQueue.length < env.shareCap)
    (ha : st.archiveQueue.length < env.archiveCap)
    (hndE : lruContains st.lru
      (ukE { bE with signingAddress := some ctx.signer }) = false)
    (hndM : lruContains st.lru
      (ukM { bM with metadata := some { signer := some ctx.signer } }) = false) :
    (∃ st2 q, EthSendBundle env ctx st vE ukE bE false = HResult.ret st2 none ∧
      st2.shareQueue = st.shareQueue ++ [q] ∧
      st2.archiveQueue = st.archiveQueue ++ [q] ∧
      q.ethSendBundle = some { bE with signingAddress := some ctx.signer } ∧
      q.requestArgUniqueKey =
        some (ukE { bE with signingAddress := some ctx.signer })) ∧
    (∃ st2 q, MevSendBundle env ctx st vM ukM bM false = HResult.ret st2 none ∧
      st2.shareQueue = st.shareQueue ++ [q] ∧
      st2.archiveQueue = st.archiveQueue ++ [q] ∧
      q.mevSendBundle =
        some { bM with metadata := some { signer := some ctx.signer } } ∧
      q.requestArgUniqueKey =
        some (ukM { bM with metadata := some { signer := some ctx.signer } })) ∧
    (∃ st2 q, EthCancelBundle env ctx st vC bC false = HResult.ret st2 none ∧
      st2.shareQueue = st.shareQueue ++ [q] ∧
      st2.archiveQueue = st.archiveQueue ++ [q] ∧
      q.ethCancelBundle = some { bC with signingAddress := some ctx.signer }) := by
  refine ⟨?_, ?_, ?_⟩
  · have hred : EthSendBundle env ctx st vE ukE bE false =
        HandleParsedRequest env ctx st
          { ParsedRequest.empty with
            signer := ctx.signer
            method := EthSendBundleMethod
            ethSendBundle := some { bE with signingAddress := some ctx.signer }
            requestArgUniqueKey :=
              some (ukE { bE with signingAddress := some ctx.signer }) } := by
      simp [EthSendBundle, validateSigner_eq, hvE, ParsedRequest.empty]
    obtain ⟨st2, h1, hsh, _, haq, _, _, _⟩ :=
      handleParsedRequest_miss_sent env ctx st
        { ParsedRequest.empty with
          signer := ctx.signer
          method := EthSendBundleMethod
          ethSendBundle := some { bE with signingAddress := some ctx.signer }
          requestArgUniqueKey :=
            some (ukE { bE with signingAddress := some ctx.signer }) }
        (by intro k h; cases h; exact hndE) hcanc hs (by intro _; exact ha)
    exact ⟨st2, _, by rw [hred]; exact h1, hsh, haq rfl, rfl, rfl⟩
  · have hred : MevSendBundle env ctx st vM ukM bM false =
        HandleParsedRequest env ctx st
          { ParsedRequest.empty with
            signer := ctx.signer
            method := MevSendBundleMethod
            mevSendBundle :=
              some { bM with metadata := some { signer := some ctx.signer } }
            requestArgUniqueKey :=
              some (ukM { bM with metadata := some { signer := some ctx.signer } }) } := by
      simp [MevSendBundle, validateSigner_eq, hvM, ParsedRequest.empty]
    obtain ⟨st2, h1, hsh, _, haq, _, _, _⟩ :=
      handleParsedRequest_miss_sent env ctx st
        { ParsedRequest.empty with
          signer := ctx.signer
          method := MevSendBundleMethod
          mevSendBundle :=
            some { bM with metadata := some { signer := some ctx.signer } }
          requestArgUniqueKey :=
            some (ukM { bM with metadata := some { signer := some ctx.signer } }) }
        (by intro k h; cases h; exact hndM) hcanc hs (by intro _; exact ha)
    exact ⟨st2, _, by rw [hred]; exact h1, hsh, haq rfl, rfl, rfl⟩
  · have hred : EthCancelBundle env ctx st vC bC false =
        HandleParsedRequest env ctx st
          { ParsedRequest.empty with
            signer := ctx.signer
            method := EthCancelBundleMethod
            ethCancelBundle := some { bC with signingAddress := some ctx.signer } } := by
      simp [EthCancelBundle, validateSigner_eq, hvC, ParsedRequest.empty]
    obtain ⟨st2, h1, hsh, _, haq, _, _, _⟩ :=
      handleParsedRequest_miss_sent env ctx st
        { ParsedRequest.empty with
          signer := ctx.signer
          method := EthCancelBundleMethod
          ethCancelBundle := some { bC with signingAddress := some ctx.signer } }
        (by intro k h; cases h) hcanc hs (by intro _; exact ha)
    exact ⟨st2, _, by rw [hred]; exact h1, hsh, haq rfl, rfl⟩

/-- Witness for C4: local submissions whose payloads carry stale
signer values 55, 66 and 77 are all re-stamped with the header signer
3. -/
theorem local_ingress_signer_stamped_witness :
    (lruContains testState.lru 7 = false) ∧
    (∃ st2 q, EthSendBundle testEnv ⟨3, false, true, true⟩ testState (fun _ _ => none)
          (fun _ => 7) { signingAddress := some 55, rest := 0 } false =
        HResult.ret st2 none ∧
      st2.shareQueue = testState.shareQueue ++ [q] ∧
      st2.archiveQueue = testState.archiveQueue ++ [q] ∧
      q.ethSendBundle = some { signingAddress := some 3, rest := 0 } ∧
      q.requestArgUniqueKey = some 7) ∧
    (∃ st2 q, MevSendBundle testEnv ⟨3, false, true, true⟩ testState (fun _ _ => none)
          (fun _ => 8) { metadata := some { signer := some 66 }, rest := 0 } false =
        HResult.ret st2 none ∧
      st2.shareQueue = testState.shareQueue ++ [q] ∧
      st2.archiveQueue = testState.archiveQueue ++ [q] ∧
      q.mevSendBundle = some { metadata := some { signer := some 3 }, rest := 0 } ∧
      q.requestArgUniqueKey = some 8) ∧
    (∃ st2 q, EthCancelBundle testEnv ⟨3, false, true, true⟩ testState (fun _ _ => none)
          { signingAddress := some 77, rest := 0 } false =
        HResult.ret st2 none ∧
      st2.shareQueue = testState.shareQueue ++ [q] ∧
      st2.archiveQueue = testState.archiveQueue ++ [q] ∧
      q.ethCancelBundle = some { signingAddress := some 3, rest := 0 }) :=
  ⟨by decide,
   local_ingress_signer_stamped testEnv ⟨3, false, true, true⟩ testState
     (fun _ _ => none) (fun _ _ => none) (fun _ _ => none)
     (fun _ => 7) (fun _ => 8)
     { signingAddress := some 55, rest := 0 }
     { metadata := some { signer := some 66 }, rest := 0 }
     { signingAddress := some 77, rest := 0 }
     rfl rfl rfl rfl (by decide) (by decide) (by decide) (by decide)⟩

/-- Number of payload variant pointers set in a `ParsedRequest`. -/
def variantCount (pr : ParsedRequest) : Nat :=
  (if pr.ethSendBundle.isSome then 1 else 0) +
  (if pr.mevSendBundle.isSome then 1 else 0) +
  (if pr.ethCancelBundle.isSome then 1 else 0) +
  (if pr.ethSendRawTransaction.isSome then 1 else 0) +
  (if pr.bidSubsidiseBlock.isSome then 1 else 0)

/-- Exactly one payload variant is set and the method string names
that variant. -/
def wellFormedVariant (pr : ParsedRequest) : Prop :=
  variantCount pr = 1 ∧
  (pr.ethSendBundle.isSome = true → pr.method = EthSendBundleMethod) ∧
  (pr.mevSendBundle.isSome = true → pr.method = MevSendBundleMethod) ∧
  (pr.ethCancelBundle.isSome = true → pr.method = EthCancelBundleMethod) ∧
  (pr.ethSendRawTransaction.isSome = true →
    pr.method = EthSendRawTransactionMethod) ∧
  (pr.bidSubsidiseBlock.isSome = true → pr.method = BidSubsidiseBlockMethod)

/-- The peer-name discipline the code implements: on the public
surface the peer name is "flashbots" for the Flashbots signer and
otherwise the name of the first matching peer (possibly the empty
string); on the local surface it is empty. -/
def peerNameConsistent (env : ProxyEnv) (pr : ParsedRequest) : Prop :=
  if pr.publicEndpoint then
    (pr.signer = env.flashbotsSignerAddress ∧
      pr.peerName = FlashbotsPeerName) ∨
    (pr.signer ≠ env.flashbotsSignerAddress ∧
      ∃ p, findPeer env.lastFetchedPeers pr.signer = some p ∧
        pr.peerName = p.name)
  else pr.peerName = ""

/-- The handler invariant survives `HandleParsedRequest`: every queue
element is either pre-existing or the handler's own request, which
carries the invariant. -/
theorem hpr_invariant (env : ProxyEnv) (ctx : Ctx) (st : ProxyState)
    (pr : ParsedRequest)
    (hwf : wellFormedVariant pr)
    (hpn : peerNameConsistent env pr) :
    (∀ q ∈ (HandleParsedRequest env ctx st pr).shareAll,
       q ∈ st.shareQueue ∨ (wellFormedVariant q ∧ peerNameConsistent env q)) ∧
    (∀ q ∈ (HandleParsedRequest env ctx st pr).archiveAll,
       q ∈ st.archiveQueue ∨ (wellFormedVariant q ∧ peerNameConsistent env q)) := by
  obtain ⟨hmS, hmA⟩ := handleParsedRequest_mem env ctx st pr
  have hstamp : wellFormedVariant { pr with receivedAt := st.now } ∧
      peerNameConsistent env { pr with receivedAt := st.now } := by
    constructor
    · simpa [wellFormedVariant, variantCount] using hwf
    · simpa [peerNameConsistent] using hpn
  constructor <;> intro q hq
  · rcases hmS q hq with h | h
    · exact Or.inl h
    · exact Or.inr (h ▸ hstamp)
  · rcases hmA q hq with h | h
    · exact Or.inl h
    · exact Or.inr (h ▸ hstamp)

/-- The handler invariant for `EthSendBundle` on either surface. -/
theorem ethSendBundle_invariant (env : ProxyEnv) (ctx : Ctx)
    (st : ProxyState) (vE : EthSendBundleArgs → Bool → Option ProxyError)
    (ukE : EthSendBundleArgs → UUID) (bE : EthSendBundleArgs) (pub : Bool) :
    (∀ q ∈ (EthSendBundle env ctx st vE ukE bE pub).shareAll,
       q ∈ st.shareQueue ∨ (wellFormedVariant q ∧ peerNameConsistent env q)) ∧
    (∀ q ∈ (EthSendBundle env ctx st vE ukE bE pub).archiveAll,
       q ∈ st.archiveQueue ∨ (wellFormedVariant q ∧ peerNameConsistent env q)) := by
  cases pub
  · cases hv : vE bE false with
    | some e =>
        constructor <;> intro q hq <;> left <;>
          simpa [EthSendBundle, validateSigner_eq, hv,
            HResult.shareAll, HResult.archiveAll] using hq
    | none =>
        have hred : EthSendBundle env ctx st vE ukE bE false =
            HandleParsedRequest env ctx st
              { ParsedRequest.empty with
                signer := ctx.signer
                method := EthSendBundleMethod
                ethSendBundle := some { bE with signingAddress := some ctx.signer }
                requestArgUniqueKey :=
                  some (ukE { bE with signingAddress := some ctx.signer }) } := by
          simp [EthSendBundle, validateSigner_eq, hv, ParsedRequest.empty]
        rw [hred]
        exact hpr_invariant env ctx st _
          (by simp [wellFormedVariant, variantCount, ParsedRequest.empty])
          (by simp [peerNameConsistent, ParsedRequest.empty])
  · by_cases hf : ctx.signer = env.flashbotsSignerAddress
    · cases hv : vE bE true with
      | some e =>
          constructor <;> intro q hq <;> left <;>
            simpa [EthSendBundle, validateSigner_eq, hv, hf,
              HResult.shareAll, HResult.archiveAll] using hq
      | none =>
          have hred : EthSendBundle env ctx st vE ukE bE true =
              HandleParsedRequest env ctx st
                { ParsedRequest.empty with
                  publicEndpoint := true
                  signer := ctx.signer
                  peerName := FlashbotsPeerName
                  method := EthSendBundleMethod
                  ethSendBundle := some bE
                  requestArgUniqueKey := some (ukE bE) } := by
            simp [EthSendBundle, validateSigner_eq, hv, hf, ParsedRequest.empty]
          rw [hred]
          exact hpr_invariant env ctx st _
            (by simp [wellFormedVariant, variantCount, ParsedRequest.empty])
            (by simp [peerNameConsistent, ParsedRequest.empty, hf])
    · cases hfp : findPeer env.lastFetchedPeers ctx.signer with
      | none =>
          constructor <;> intro q hq <;> left <;>
            simpa [EthSendBundle, validateSigner_eq, hf, hfp,
              HResult.shareAll, HResult.archiveAll] using hq
      | some p =>
          cases hv : vE bE true with
          | some e =>
              constructor <;> intro q hq <;> left <;>
                simpa [EthSendBundle, validateSigner_eq, hv, hf, hfp,
                  HResult.shareAll, HResult.archiveAll] using hq
          | none =>
              have hred : EthSendBundle env ctx st vE ukE bE true =
                  HandleParsedRequest env ctx st
                    { ParsedRequest.empty with
                      publicEndpoint := true
                      signer := ctx.signer
                      peerName := p.name
                      method := EthSendBundleMethod
                      ethSendBundle := some bE
                      requestArgUniqueKey := some (ukE bE) } := by
                simp [EthSendBundle, validateSigner_eq, hv, hf, hfp,
                  ParsedRequest.empty]
              rw [hred]
              refine hpr_invariant env ctx st _
                (by simp [wellFormedVariant, variantCount, ParsedRequest.empty]) ?_
              simp only [peerNameConsistent, ParsedRequest.empty, if_true]
              exact Or.inr ⟨hf, p, hfp, rfl⟩

/-- The handler invariant for `MevSendBundle` on either surface. -/
theorem mevSendBundle_invariant (env : ProxyEnv) (ctx : Ctx)
    (st : ProxyState) (vM : MevSendBundleArgs → Bool → Option ProxyError)
    (ukM : MevSendBundleArgs → UUID) (bM : MevSendBundleArgs) (pub : Bool) :
    (∀ q ∈ (MevSendBundle env ctx st vM ukM bM pub).shareAll,
       q ∈ st.shareQueue ∨ (wellFormedVariant q ∧ peerNameConsistent env q)) ∧
    (∀ q ∈ (MevSendBundle env ctx st vM ukM bM pub).archiveAll,
       q ∈ st.archiveQueue ∨ (wellFormedVariant q ∧ peerNameConsistent env q)) := by
  cases pub
  · cases hv : vM bM false with
    | some e =>
        constructor <;> intro q hq <;> left <;>
          simpa [MevSendBundle, validateSigner_eq, hv,
            HResult.shareAll, HResult.archiveAll] using hq
    | none =>
        have hred : MevSendBundle env ctx st vM ukM bM false =
            HandleParsedRequest env ctx st
              { ParsedRequest.empty with
                signer := ctx.signer
                method := MevSendBundleMethod
                mevSendBundle :=
                  some { bM with metadata := some { signer := some ctx.signer } }
                requestArgUniqueKey :=
                  some (ukM { bM with
                    metadata := some { signer := some ctx.signer } }) } := by
          simp [MevSendBundle, validateSigner_eq, hv, ParsedRequest.empty]
        rw [hred]
        exact hpr_invariant env ctx st _
          (by simp [wellFormedVariant, variantCount, ParsedRequest.empty])
          (by simp [peerNameConsistent, ParsedRequest.empty])
  · by_cases hf : ctx.signer = env.flashbotsSignerAddress
    · cases hv : vM bM true with
      | some e =>
          constructor <;> intro q hq <;> left <;>
            simpa [MevSendBundle, validateSigner_eq, hv, hf,
              HResult.shareAll, HResult.archiveAll] using hq
      | none =>
          have hred : MevSendBundle env ctx st vM ukM bM true =
              HandleParsedRequest env ctx st
                { ParsedRequest.empty with
                  publicEndpoint := true
                  signer := ctx.signer
                  peerName := FlashbotsPeerName
                  method := MevSendBundleMethod
                  mevSendBundle := some bM
                  requestArgUniqueKey := some (ukM bM) } := by
            simp [MevSendBundle, validateSigner_eq, hv, hf, ParsedRequest.empty]
          rw [hred]
          exact hpr_invariant env ctx st _
            (by simp [wellFormedVariant, variantCount, ParsedRequest.empty])
            (by simp [peerNameConsistent, ParsedRequest.empty, hf])
    · cases hfp : findPeer env.lastFetchedPeers ctx.signer with
      | none =>
          constructor <;> intro q hq <;> left <;>
            simpa [MevSendBundle, validateSigner_eq, hf, hfp,
              HResult.shareAll, HResult.archiveAll] using hq
      | some p =>
          cases hv : vM bM true with
          | some e =>
              constructor <;> intro q hq <;> left <;>
                simpa [MevSendBundle, validateSigner_eq, hv, hf, hfp,
                  HResult.shareAll, HResult.archiveAll] using hq
          | none =>
              have hred : MevSendBundle env ctx st vM ukM bM true =
                  HandleParsedRequest env ctx st
                    { ParsedRequest.empty with
                      publicEndpoint := true
                      signer := ctx.signer
                      peerName := p.name
                      method := MevSendBundleMethod
                      mevSendBundle := some bM
                      requestArgUniqueKey := some (ukM bM) } := by
                simp [MevSendBundle, validateSigner_eq, hv, hf, hfp,
                  ParsedRequest.empty]
              rw [hred]
              refine hpr_invariant env ctx st _
                (by simp [wellFormedVariant, variantCount, ParsedRequest.empty]) ?_
              simp only [peerNameConsistent, ParsedRequest.empty, if_true]
              exact Or.inr ⟨hf, p, hfp, rfl⟩

/-- The handler invariant for `EthCancelBundle` on either surface. -/
theorem ethCancelBundle_invariant (env : ProxyEnv) (ctx : Ctx)
    (st : ProxyState) (vC : EthCancelBundleArgs → Bool → Option ProxyError)
    (bC : EthCancelBundleArgs) (pub : Bool) :
    (∀ q ∈ (EthCancelBundle env ctx st vC bC pub).shareAll,
       q ∈ st.shareQueue ∨ (wellFormedVariant q ∧ peerNameConsistent env q)) ∧
    (∀ q ∈ (EthCancelBundle env ctx st vC bC pub).archiveAll,
       q ∈ st.archiveQueue ∨ (wellFormedVariant q ∧ peerNameConsistent env q)) := by
  cases pub
  · cases hv : vC bC false with
    | some e =>
        constructor <;> intro q hq <;> left <;>
          simpa [EthCancelBundle, validateSigner_eq, hv,
            HResult.shareAll, HResult.archiveAll] using hq
    | none =>
        have hred : EthCancelBundle env ctx st vC bC false =
            HandleParsedRequest env ctx st
              { ParsedRequest.empty with
                signer := ctx.signer
                method := EthCancelBundleMethod
                ethCancelBundle :=
                  some { bC with signingAddress := some ctx.signer } } := by
          simp [EthCancelBundle, validateSigner_eq, hv, ParsedRequest.empty]
        rw [hred]
        exact hpr_invariant env ctx st _
          (by simp [wellFormedVariant, variantCount, ParsedRequest.empty])
          (by simp [peerNameConsistent, ParsedRequest.empty])
  · by_cases hf : ctx.signer = env.flashbotsSignerAddress
    · cases hv : vC bC true with
      | some e =>
          constructor <;> intro q hq <;> left <;>
            simpa [EthCancelBundle, validateSigner_eq, hv, hf,
              HResult.shareAll, HResult.archiveAll] using hq
      | none =>
          have hred : EthCancelBundle env ctx st vC bC true =
              HandleParsedRequest env ctx st
                { ParsedRequest.empty with
                  publicEndpoint := true
                  signer := ctx.signer
                  peerName := FlashbotsPeerName
                  method := EthCancelBundleMethod
                  ethCancelBundle := some bC } := by
            simp [EthCancelBundle, validateSigner_eq, hv, hf, ParsedRequest.empty]
          rw [hred]
          exact hpr_invariant env ctx st _
            (by simp [wellFormedVariant, variantCount, ParsedRequest.empty])
            (by simp [peerNameConsistent, ParsedRequest.empty, hf])
    · cases hfp : findPeer env.lastFetchedPeers ctx.signer with
      | none =>
          constructor <;> intro q hq <;> left <;>
            simpa [EthCancelBundle, validateSigner_eq, hf, hfp,
              HResult.shareAll, HResult.archiveAll] using hq
      | some p =>
          cases hv : vC bC true with
          | some e =>
              constructor <;> intro q hq <;> left <;>
                simpa [EthCancelBundle, validateSigner_eq, hv, hf, hfp,
                  HResult.shareAll, HResult.archiveAll] using hq
          | none =>
              have hred : EthCancelBundle env ctx st vC bC true =
                  HandleParsedRequest env ctx st
                    { ParsedRequest.empty with
                      publicEndpoint := true
                      signer := ctx.signer
                      peerName := p.name
                      method := EthCancelBundleMethod
                      ethCancelBundle := some bC } := by
                simp [EthCancelBundle, validateSigner_eq, hv, hf, hfp,
                  ParsedRequest.empty]
              rw [hred]
              refine hpr_invariant env ctx st _
                (by simp [wellFormedVariant, variantCount, ParsedRequest.empty]) ?_
              simp only [peerNameConsistent, ParsedRequest.empty, if_true]
              exact Or.inr ⟨hf, p, hfp, rfl⟩

/-- The handler invariant for `EthSendRawTransaction` on either
surface. -/
theorem ethSendRawTransaction_invariant (env : ProxyEnv) (ctx : Ctx)
    (st : ProxyState) (ukT : EthSendRawTransactionArgs → UUID)
    (bT : EthSendRawTransactionArgs) (pub : Bool) :
    (∀ q ∈ (EthSendRawTransaction env ctx st ukT bT pub).shareAll,
       q ∈ st.shareQueue ∨ (wellFormedVariant q ∧ peerNameConsistent env q)) ∧
    (∀ q ∈ (EthSendRawTransaction env ctx st ukT bT pub).archiveAll,
       q ∈ st.archiveQueue ∨ (wellFormedVariant q ∧ peerNameConsistent env q)) := by
  cases pub
  · have hred : EthSendRawTransaction env ctx st ukT bT false =
        HandleParsedRequest env ctx st
          { ParsedRequest.empty with
            signer := ctx.signer
            method := EthSendRawTransactionMethod
            ethSendRawTransaction := some bT
            requestArgUniqueKey := some (ukT bT) } := by
      simp [EthSendRawTransaction, validateSigner_eq, ParsedRequest.empty]
    rw [hred]
    exact hpr_invariant env ctx st _
      (by simp [wellFormedVariant, variantCount, ParsedRequest.empty])
      (by simp [peerNameConsistent, ParsedRequest.empty])
  · by_cases hf : ctx.signer = env.flashbotsSignerAddress
    · have hred : EthSendRawTransaction env ctx st ukT bT true =
          HandleParsedRequest env ctx st
            { ParsedRequest.empty with
              publicEndpoint := true
              signer := ctx.signer
              peerName := FlashbotsPeerName
              method := EthSendRawTransactionMethod
              ethSendRawTransaction := some bT
              requestArgUniqueKey := some (ukT bT) } := by
        simp [EthSendRawTransaction, validateSigner_eq, hf, ParsedRequest.empty]
      rw [hred]
      exact hpr_invariant env ctx st _
        (by simp [wellFormedVariant, variantCount, ParsedRequest.empty])
        (by simp [peerNameConsistent, ParsedRequest.empty, hf])
    · cases hfp : findPeer env.lastFetchedPeers ctx.signer with
      | none =>
          constructor <;> intro q hq <;> left <;>
            simpa [EthSendRawTransaction, validateSigner_eq, hf, hfp,
              HResult.shareAll, HResult.archiveAll] using hq
      | some p =>
          have hred : EthSendRawTransaction env ctx st ukT bT true =
              HandleParsedRequest env ctx st
                { ParsedRequest.empty with
                  publicEndpoint := true
                  signer := ctx.signer
                  peerName := p.name
                  method := EthSendRawTransactionMethod
                  ethSendRawTransaction := some bT
                  requestArgUniqueKey := some (ukT bT) } := by
            simp [EthSendRawTransaction, validateSigner_eq, hf, hfp,
              ParsedRequest.empty]
          rw [hred]
          refine hpr_invariant env ctx st _
            (by simp [wellFormedVariant, variantCount, ParsedRequest.empty]) ?_
          simp only [peerNameConsistent, ParsedRequest.empty, if_true]
          exact Or.inr ⟨hf, p, hfp, rfl⟩

/-- The handler invariant for `BidSubsidiseBlock` on either surface. -/
theorem bidSubsidiseBlock_invariant (env : ProxyEnv) (ctx : Ctx)
    (st : ProxyState) (ukB : BidSubsidiseBlockArgs → UUID)
    (bB : BidSubsidiseBlockArgs) (pub : Bool) :
    (∀ q ∈ (BidSubsidiseBlock env ctx st ukB bB pub).shareAll,
       q ∈ st.shareQueue ∨ (wellFormedVariant q ∧ peerNameConsistent env q)) ∧
    (∀ q ∈ (BidSubsidiseBlock env ctx st ukB bB pub).archiveAll,
       q ∈ st.archiveQueue ∨ (wellFormedVariant q ∧ peerNameConsistent env q)) := by
  cases pub
  · constructor <;> intro q hq <;> left <;>
      simpa [BidSubsidiseBlock, HResult.shareAll, HResult.archiveAll] using hq
  · by_cases hf : ctx.signer = env.flashbotsSignerAddress
    · have hred : BidSubsidiseBlock env ctx st ukB bB true =
          HandleParsedRequest env ctx st
            { ParsedRequest.empty with
              publicEndpoint := true
              signer := ctx.signer
              peerName := FlashbotsPeerName
              method := BidSubsidiseBlockMethod
              bidSubsidiseBlock := some bB
              requestArgUniqueKey := some (ukB bB) } := by
        simp [BidSubsidiseBlock, validateSigner_eq, hf, ParsedRequest.empty]
      rw [hred]
      exact hpr_invariant env ctx st _
        (by simp [wellFormedVariant, variantCount, ParsedRequest.empty])
        (by simp [peerNameConsistent, ParsedRequest.empty, hf])
    · cases hfp : findPeer env.lastFetchedPeers ctx.signer with
      | none =>
          constructor <;> intro q hq <;> left <;>
            simpa [BidSubsidiseBlock, validateSigner_eq, hf, hfp,
              HResult.shareAll, HResult.archiveAll] using hq
      | some p =>
          constructor <;> intro q hq <;> left <;>
            simpa [BidSubsidiseBlock, validateSigner_eq, hf, hfp,
              HResult.shareAll, HResult.archiveAll] using hq

/-- An environment whose only peer has the empty string as its name. -/
def emptyNamePeerEnv : ProxyEnv :=
  { flashbotsSignerAddress := 1
    lastFetchedPeers := [{ name := "", ecdsaPubkeyAddress := 5 }]
    shareCap := 4
    archiveCap := 4
    lruCap := 16 }

/-- C8 counterexample: a public request from signer 5, which matches
the known peer named by the empty string, is enqueued with an empty
`peerName` even though the surface is public and the signer matched a
known peer — so peerName being non-empty is not equivalent to the
signer having matched. -/
theorem parsedRequest_invariant_counterexample :
    (EthSendBundle emptyNamePeerEnv ⟨5, false, true, true⟩ testState (fun _ _ => none)
        (fun _ => 3) { signingAddress := none, rest := 0 } true).shareAll =
      [{ publicEndpoint := true
         signer := 5
         method := EthSendBundleMethod
         peerName := ""
         receivedAt := 100
         requestArgUniqueKey := some 3
         ethSendBundle := some { signingAddress := none, rest := 0 }
         mevSendBundle := none
         ethCancelBundle := none
         ethSendRawTransaction := none
         bidSubsidiseBlock := none }] ∧
    findPeer emptyNamePeerEnv.lastFetchedPeers 5 =
      some { name := "", ecdsaPubkeyAddress := 5 } := by
  exact ⟨by decide, by decide⟩

/-- C8 (amended): every `ParsedRequest` any of the five handlers adds
to a queue has exactly one payload variant set, a method string naming
that variant, and the peer-name discipline of the code: "flashbots"
for the Flashbots signer on the public surface, the (possibly empty)
name of the first matching peer otherwise, and the empty string on the
local surface. -/
theorem parsedRequest_invariant (env : ProxyEnv) (ctx : Ctx)
    (st : ProxyState)
    (vE : EthSendBundleArgs → Bool → Option ProxyError)
    (vM : MevSendBundleArgs → Bool → Option ProxyError)
    (vC : EthCancelBundleArgs → Bool → Option ProxyError)
    (ukE : EthSendBundleArgs → UUID) (ukM : MevSendBundleArgs → UUID)
    (ukT : EthSendRawTransactionArgs → UUID)
    (ukB : BidSubsidiseBlockArgs → UUID)
    (bE : EthSendBundleArgs) (bM : MevSendBundleArgs)
    (bC : EthCancelBundleArgs) (bT : EthSendRawTransactionArgs)
    (bB : BidSubsidiseBlockArgs) (pub : Bool) :
    ((∀ q ∈ (EthSendBundle env ctx st vE ukE bE pub).shareAll,
        q ∈ st.shareQueue ∨ (wellFormedVariant q ∧ peerNameConsistent env q)) ∧
      (∀ q ∈ (EthSendBundle env ctx st vE ukE bE pub).archiveAll,
        q ∈ st.archiveQueue ∨ (wellFormedVariant q ∧ peerNameConsistent env q))) ∧
    ((∀ q ∈ (MevSendBundle env ctx st vM ukM bM pub).shareAll,
        q ∈ st.shareQueue ∨ (wellFormedVariant q ∧ peerNameConsistent env q)) ∧
      (∀ q ∈ (MevSendBundle env ctx st vM ukM bM pub).archiveAll,
        q ∈ st.archiveQueue ∨ (wellFormedVariant q ∧ peerNameConsistent env q))) ∧
    ((∀ q ∈ (EthCancelBundle env ctx st vC bC pub).shareAll,
        q ∈ st.shareQueue ∨ (wellFormedVariant q ∧ peerNameConsistent env q)) ∧
      (∀ q ∈ (EthCancelBundle env ctx st vC bC pub).archiveAll,
        q ∈ st.archiveQueue ∨ (wellFormedVariant q ∧ peerNameConsistent env q))) ∧
    ((∀ q ∈ (EthSendRawTransaction env ctx st ukT bT pub).shareAll,
        q ∈ st.shareQueue ∨ (wellFormedVariant q ∧ peerNameConsistent env q)) ∧
      (∀ q ∈ (EthSendRawTransaction env ctx st ukT bT pub).archiveAll,
        q ∈ st.archiveQueue ∨ (wellFormedVariant q ∧ peerNameConsistent env q))) ∧
    ((∀ q ∈ (BidSubsidiseBlock env ctx st ukB bB pub).shareAll,
        q ∈ st.shareQueue ∨ (wellFormedVariant q ∧ peerNameConsistent env q)) ∧
      (∀ q ∈ (BidSubsidiseBlock env ctx st ukB bB pub).archiveAll,
        q ∈ st.archiveQueue ∨ (wellFormedVariant q ∧ peerNameConsistent env q))) :=
  ⟨ethSendBundle_invariant env ctx st vE ukE bE pub,
   mevSendBundle_invariant env ctx st vM ukM bM pub,
   ethCancelBundle_invariant env ctx st vC bC pub,
   ethSendRawTransaction_invariant env ctx st ukT bT pub,
   bidSubsidiseBlock_invariant env ctx st ukB bB pub⟩

/-- Witness for C8 (amended): the request a public Flashbots
`eth_sendBundle` enqueues satisfies the invariant. -/
theorem parsedRequest_invariant_witness :
    ({ publicEndpoint := true
       signer := 1
       method := EthSendBundleMethod
       peerName := FlashbotsPeerName
       receivedAt := 100
       requestArgUniqueKey := some 7
       ethSendBundle := some { signingAddress := none, rest := 0 }
       mevSendBundle := none
       ethCancelBundle := none
       ethSendRawTransaction := none
       bidSubsidiseBlock := none } : ParsedRequest) ∈
      (EthSendBundle testEnv ⟨1, false, true, true⟩ testState (fun _ _ => none)
        (fun _ => 7) { signingAddress := none, rest := 0 } true).shareAll ∧
    (({ publicEndpoint := true
        signer := 1
        method := EthSendBundleMethod
        peerName := FlashbotsPeerName
        receivedAt := 100
        requestArgUniqueKey := some 7
        ethSendBundle := some { signingAddress := none, rest := 0 }
        mevSendBundle := none
        ethCancelBundle := none
        ethSendRawTransaction := none
        bidSubsidiseBlock := none } : ParsedRequest) ∈ testState.shareQueue ∨
      (wellFormedVariant
          { publicEndpoint := true
            signer := 1
            method := EthSendBundleMethod
            peerName := FlashbotsPeerName
            receivedAt := 100
            requestArgUniqueKey := some 7
            ethSendBundle := some { signingAddress := none, rest := 0 }
            mevSendBundle := none
            ethCancelBundle := none
            ethSendRawTransaction := none
            bidSubsidiseBlock := none } ∧
        peerNameConsistent testEnv
          { publicEndpoint := true
            signer := 1
            method := EthSendBundleMethod
            peerName := FlashbotsPeerName
            receivedAt := 100
            requestArgUniqueKey := some 7
            ethSendBundle := some { signingAddress := none, rest := 0 }
            mevSendBundle := none
            ethCancelBundle := none
            ethSendRawTransaction := none
            bidSubsidiseBlock := none })) :=
  ⟨by decide,
   (parsedRequest_invariant testEnv ⟨1, false, true, true⟩ testState
      (fun _ _ => none) (fun _ _ => none) (fun _ _ => none)
      (fun _ => 7) (fun _ => 8) (fun _ => 9) (fun _ => 10)
      { signingAddress := none, rest := 0 }
      { metadata := none, rest := 0 }
      { signingAddress := none, rest := 0 }
      { rest := 0 } { rest := 0 } true).1.1 _ (by decide)⟩
